import Mathlib

/- Shallow embedding of the bevy_obj_loader crate (src/loader.rs): the OBJ
   asset-loading pipeline.  The pipeline scans the OBJ text for mtllib
   references, fetches and parses each referenced material library, parses
   the OBJ geometry through an external parser supplied with a material
   resolver callback, loads textures and materials, chunks the flat vertex
   arrays into fixed-width attribute tuples, and assembles labeled assets
   plus a scene graph.  Effects (asset fetches and labeled-asset
   registrations) are threaded explicitly through a `LoadCtx` record. -/

set_option autoImplicit false

/-- Carrier for Rust `f32` values.  The loader only moves these values around
    verbatim (no arithmetic is ever performed on them), so any type with
    decidable equality is a faithful carrier; we use the rationals. -/
abbrev F32 := ℚ

/-- Raw byte contents returned by the asset byte-fetch capability. -/
abbrev Bytes := List Nat

/-- Fields of `tobj::Material` that the loader reads (name, diffuse colour
    triple, shininess scalar, and the four texture reference strings). -/
structure MtlMaterial where
  name : String
  diffuse : F32 × F32 × F32
  shininess : F32
  diffuse_texture : String
  normal_texture : String
  specular_texture : String
  ambient_texture : String
deriving DecidableEq

/-- Fields of `tobj::Mesh` that the loader reads: the flat position, normal
    and texcoord arrays, the flat `u32` index array, and the optional index
    into the flattened material list. -/
structure RawMesh where
  positions : List F32
  normals : List F32
  texcoords : List F32
  indices : List Nat
  material_id : Option Nat
deriving DecidableEq

/-- A `tobj::Model`: a named raw mesh record. -/
structure TobjModel where
  name : String
  mesh : RawMesh
deriving DecidableEq

/-- Failure values of the external tobj parser (`tobj::LoadError`).  The
    loader itself only ever constructs `readError` (in `Builder::build` and
    in the resolver callback for an unindexed path). -/
inductive TobjErr
  | readError
  | materialParse
deriving DecidableEq

/-- Result of parsing one material library (`tobj::MTLLoadResult`,
    restricted to the data the loader uses). -/
abbrev MtlResult := Except TobjErr (List MtlMaterial)

/-- Fuel-indexed worker for `rustChunks` (structural recursion on the fuel,
    which starts at the list length and strictly dominates the number of
    chunks taken). -/
def rustChunksAux {α : Type} : Nat → Nat → List α → List (List α)
  | _, _, [] => []
  | 0, _, _ :: _ => []
  | fuel + 1, N, x :: xs =>
    if N = 0 then [] else (x :: xs).take N :: rustChunksAux fuel N ((x :: xs).drop N)

/-- Rust `slice::chunks(N)`: consecutive chunks of length `N`, where the
    last chunk may be shorter.  The source only calls it with `N = 3` or
    `N = 2`; Rust panics on `N = 0`, which never happens here, so that case
    is mapped to the empty list. -/
def rustChunks {α : Type} (N : Nat) (v : List α) : List (List α) :=
  rustChunksAux v.length N v

/-- The closure passed by `chunk_by` to `.map`: one chunk is converted with
    `try_into` into `[T; N]`, which succeeds exactly when the chunk length is
    `N`, and otherwise yields the anyhow error message `failed to chunk`. -/
def chunkTry {α : Type} (N : Nat) (c : List α) : Except String (List α) :=
  if c.length = N then Except.ok c else Except.error ("failed to chunk")

/-- The `chunk_by::<T, N>` function from loader.rs: `v.chunks(N)`, each chunk
    converted with `try_into` into `[T; N]`, collected into a `Result` where
    the first failure short-circuits. -/
def chunk_by {α : Type} (N : Nat) (v : List α) : Except String (List (List α)) :=
  (rustChunks N v).mapM (chunkTry N)

deriving instance DecidableEq for Except

/-- Splitting a character sequence at every separator matching `p`, keeping
    empty pieces: the character-level computation behind splitting a string at
    a single separator character. -/
def splitChars (p : Char → Bool) : List Char → List (List Char)
  | [] => [[]]
  | c :: rest =>
    match splitChars p rest with
    | [] => [[]]
    | h :: t => if p c then [] :: h :: t else (c :: h) :: t

/-- Rust `BufRead::lines` strips a trailing carriage return only after it has
    stripped the newline, so every newline-terminated line loses at most one
    trailing CR character. -/
def stripCRChars (cs : List Char) : List Char :=
  if cs.getLast? = some '\r' then cs.dropLast else cs

/-- Helper for `rustLines`: the pieces obtained by splitting at every newline
    character.  Every piece except the last was terminated by a newline and
    has a trailing CR stripped; a final empty piece (input ended in a newline)
    produces no line. -/
def rustLinesAux : List (List Char) → List String
  | [] => []
  | [last] => if last = [] then [] else [last.asString]
  | piece :: rest => (stripCRChars piece).asString :: rustLinesAux rest

/-- The line iteration of `BufReader::lines()` over the input text, as the
    scanner consumes it.  (The reader-level UTF-8 decoding failure, which the
    caller also maps to `InvalidObjFormat`, is outside this text-level
    model.) -/
def rustLines (s : String) : List String :=
  rustLinesAux (splitChars (fun c => c = '\n') s.toList)

/-- Rust `str::split_whitespace`: the maximal non-empty tokens obtained by
    splitting at whitespace.  (Rust uses Unicode whitespace; `Char.isWhitespace`
    covers the ASCII whitespace that OBJ files use.) -/
def splitWhitespaceR (s : String) : List String :=
  ((splitChars (fun c => c.isWhitespace) s.toList).filter (fun t => t ≠ [])).map
    List.asString

/-- The scanning loop of `get_material_lib_paths`: for each line, if the first
    whitespace token is `mtllib` the second token is appended (a missing
    second token is the `invalid mtllib definition` context error, which `?`
    propagates); all other lines are ignored. -/
def scanLines : List String → Except String (List String)
  | [] => Except.ok []
  | line :: rest =>
    match splitWhitespaceR line with
    | "mtllib" :: tokens =>
      match tokens with
      | [] => Except.error ("invalid mtllib definition")
      | m :: _ =>
        match scanLines rest with
        | Except.ok tail => Except.ok (m :: tail)
        | Except.error e => Except.error e
    | _ => scanLines rest

/-- The `get_material_lib_paths` function from loader.rs, at the level of the
    decoded input text. -/
def get_material_lib_paths (s : String) : Except String (List String) :=
  scanLines (rustLines s)

/-- Specification-side view of one line for the scanner claims: the second
    whitespace token of a line whose first whitespace token is `mtllib`. -/
def mtllibSecondToken (line : String) : Option String :=
  match splitWhitespaceR line with
  | "mtllib" :: m :: _ => some m
  | _ => none

/-- Filter modes of the render texture sampler. -/
inductive FilterMode
  | nearest
  | linear
deriving DecidableEq

/-- The sampler fields `load_texture` overwrites (all other fields keep their
    engine defaults). -/
structure SamplerDescriptor where
  mag_filter : FilterMode
  min_filter : FilterMode
deriving DecidableEq

/-- Pixel formats relevant to the loader: it forces every decoded texture to
    `Rgba8UnormSrgb`. -/
inductive TextureFormat
  | rgba8UnormSrgb
  | other
deriving DecidableEq

/-- A decoded texture asset: pixel data together with the sampler and format
    the loader assigns. -/
structure Texture where
  data : Bytes
  sampler : SamplerDescriptor
  format : TextureFormat
deriving DecidableEq

/-- The `texture_sampler()` function: linear magnification and minification
    filtering. -/
def texture_sampler : SamplerDescriptor :=
  ⟨FilterMode.linear, FilterMode.linear⟩

/-- An RGB colour (`Color::rgb`). -/
structure Color where
  r : F32
  g : F32
  b : F32
deriving DecidableEq

/-- The `StandardMaterial` fields the loader sets, plus representative fields
    that `..Default::default()` leaves at their bevy 0.5 engine defaults.
    Optional texture handles are identified by their asset label. -/
structure StandardMaterial where
  base_color : Color := ⟨1, 1, 1⟩
  base_color_texture : Option String := none
  roughness : F32 := 89 / 1000
  metallic : F32 := 1 / 100
  metallic_roughness_texture : Option String := none
  reflectance : F32 := 1 / 2
  normal_map : Option String := none
  double_sided : Bool := false
  occlusion_texture : Option String := none
  emissive : Color := ⟨0, 0, 0⟩
  unlit : Bool := false
deriving DecidableEq

/-- The vertex data stored on an emitted mesh asset: chunked position, normal
    and uv attribute tuples plus the verbatim `u32` index sequence. -/
structure MeshData where
  positions : List (List F32)
  normals : List (List F32)
  uvs : List (List F32)
  indices : List Nat
deriving DecidableEq

/-- One child node of the emitted scene: a `PbrBundle` pairing a mesh handle
    with its optional material handle under the identity-transform root. -/
structure SceneNode where
  mesh : String
  material : Option String
deriving DecidableEq

/-- The labeled assets a load can register.  Handles are identified by asset
    label (bevy derives the handle from the source path plus the label, and
    the source path is fixed within one load). -/
inductive Asset
  | texture (t : Texture)
  | material (m : StandardMaterial)
  | mesh (m : MeshData)
  | objMesh (mesh : String) (material : Option String)
  | obj (materials : List String) (meshes : List String)
  | scene (nodes : List SceneNode)
deriving DecidableEq

/-- The observable effects of one load: every byte-fetch request issued (in
    order) and every labeled-asset registration performed (in order). -/
structure LoadCtx where
  fetches : List String
  assets : List (String × Asset)
deriving DecidableEq

/-- The environment a load runs against: the directory of the OBJ file
    (`load_context.path().parent()`), the asynchronous byte-fetch capability,
    the external MTL parser, the image decoder (`Texture::from_buffer`), and
    the behaviour of the external OBJ parser on this input (the material
    references it requests while parsing, and the parse outcome of the
    geometry itself). -/
structure Env where
  parent : String
  fetch : String → Option Bytes
  load_mtl : Bytes → MtlResult
  from_buffer : Bytes → String → Option Texture
  objRequests : List String
  objGeometry : Except TobjErr (List TobjModel × List MtlMaterial)

/-- Rust `Path::join` of the parent directory with a relative reference. -/
def joinPath (parent s : String) : String :=
  parent ++ "/" ++ s

/-- Rust `Path::extension()`: the suffix after the last dot of the final path
    component, absent when there is no dot or when the only dot leads a hidden
    file name. -/
def pathExt (p : String) : Option String :=
  let file := (splitChars (fun c => c = '/') p.toList).getLastD []
  match splitChars (fun c => c = '.') file with
  | [] => none
  | [_] => none
  | first :: rest =>
    if first = [] ∧ rest.length = 1 then none
    else some ((rest.getLastD []).asString)

/-- The `texture_label` function: the literal texture reference string. -/
def texture_label (texture : String) : String :=
  texture

/-- The `material_label` function: the material's name. -/
def material_label (material : MtlMaterial) : String :=
  material.name

/-- The `model_label` function: the model's name. -/
def model_label (model : TobjModel) : String :=
  model.name

/-- `load_context.set_labeled_asset`: registers the asset under the label and
    returns the handle for that label (last registration wins on a duplicate
    label). -/
def set_labeled_asset (st : LoadCtx) (label : String) (a : Asset) : LoadCtx × String :=
  (⟨st.fetches, st.assets ++ [(label, a)]⟩, label)

/-- `load_context.read_asset_bytes`: issues one fetch of the given path
    against the byte-fetch capability and records it. -/
def read_asset_bytes (env : Env) (st : LoadCtx) (path : String) : LoadCtx × Option Bytes :=
  (⟨st.fetches ++ [path], st.assets⟩, env.fetch path)

/-- Lookup in the `HashMap<String, MTLLoadResult>` built by the resolution
    loop: `insert` overwrites, so the last binding for a key wins. -/
def hmLookup {β : Type} : List (String × β) → String → Option β
  | [], _ => none
  | (k, v) :: rest, key =>
    match hmLookup rest key with
    | some r => some r
    | none => if k = key then some v else none

/-- The resolver closure passed to `tobj::load_obj_buf`: return the stored
    resolution result for the requested literal path, or `ReadError` when the
    path was never indexed. -/
def mtlResolver (index : List (String × MtlResult)) (p : String) : MtlResult :=
  match hmLookup index p with
  | some res => res
  | none => Except.error TobjErr.readError

/-- First error among a sequence of material resolution results. -/
def firstError : List MtlResult → Option TobjErr
  | [] => none
  | Except.error e :: _ => some e
  | Except.ok _ :: rest => firstError rest

/-- Modelled from the spec: `tobj::load_obj_buf`, the external OBJ geometry
    parser (spec 4.3 and 6), which is not part of this repository.  It parses
    the OBJ text and invokes the supplied material resolver callback once per
    material-library reference it encounters (`env.objRequests`, in encounter
    order); the first callback failure propagates as the parse result, and
    otherwise the parse outcome of the geometry itself (`env.objGeometry`) is
    returned. -/
def load_obj_buf (env : Env) (resolve : String → MtlResult) :
    Except TobjErr (List TobjModel × List MtlMaterial) :=
  match firstError (env.objRequests.map resolve) with
  | some e => Except.error e
  | none => env.objGeometry

/-- Reasons a load aborts by panicking rather than by returning `Err`: the
    loader unwraps the material-library fetch, the OBJ parse, the vertex
    chunking, and the extension of a texture path. -/
inductive PanicInfo
  | fetchUnwrap (path : String)
  | objParseUnwrap (e : TobjErr)
  | chunkUnwrap
  | extUnwrap (path : String)
deriving DecidableEq

/-- The anyhow error causes that texture loading propagates with `?` (and
    which `load_obj` maps to `InvalidObjFormat`). -/
inductive AErr
  | fetchErr (path : String)
  | decodeErr (path : String)
deriving DecidableEq

/-- A failure inside material loading: either an anyhow error travelling the
    `?` channel or a panic escaping the function. -/
inductive MatFail
  | err (e : AErr)
  | fatal (info : PanicInfo)
deriving DecidableEq

/-- The crate's own error enum (`ObjError`). -/
inductive ObjError
  | invalidObjFormat
deriving DecidableEq

/-- How a load as a whole can abort: by returning `Err(ObjError)` or by
    panicking. -/
inductive Abort
  | err (e : ObjError)
  | panicked (info : PanicInfo)
deriving DecidableEq

/-- The material-library resolution loop in `load_obj`: for each pending path
    in order, fetch the joined path (`.unwrap()` panics when the fetch fails)
    and store the literal path with the parse result of the bytes, without
    inspecting that result. -/
def resolveMaterialLibs (env : Env) :
    LoadCtx → List String → LoadCtx × Except PanicInfo (List (String × MtlResult))
  | st, [] => (st, Except.ok [])
  | st, p :: rest =>
    let r := read_asset_bytes env st (joinPath env.parent p)
    match r.2 with
    | none => (r.1, Except.error (PanicInfo.fetchUnwrap (joinPath env.parent p)))
    | some bytes =>
      match resolveMaterialLibs env r.1 rest with
      | (st2, Except.error info) => (st2, Except.error info)
      | (st2, Except.ok index) => (st2, Except.ok ((p, env.load_mtl bytes) :: index))

/-- The `load_texture` function: fetch the joined image path (`?` on
    failure), decode it with the file-extension hint (`.extension().unwrap()`
    panics on a missing extension), force the linear sampler and the
    `Rgba8UnormSrgb` format, and register the texture under its label. -/
def load_texture (env : Env) (st : LoadCtx) (texture : String) :
    LoadCtx × Except MatFail Unit :=
  let label := texture_label texture
  let image_path := joinPath env.parent texture
  let r := read_asset_bytes env st image_path
  match r.2 with
  | none => (r.1, Except.error (MatFail.err (AErr.fetchErr image_path)))
  | some bytes =>
    match pathExt image_path with
    | none => (r.1, Except.error (MatFail.fatal (PanicInfo.extUnwrap image_path)))
    | some ext =>
      match env.from_buffer bytes ext with
      | none => (r.1, Except.error (MatFail.err (AErr.decodeErr image_path)))
      | some tex =>
        let r2 := set_labeled_asset r.1 label
          (Asset.texture ⟨tex.data, texture_sampler, TextureFormat.rgba8UnormSrgb⟩)
        (r2.1, Except.ok ())

/-- The `try_texture_handle` function: an empty reference yields no texture
    without any effect; a non-empty reference is loaded and its label handle
    returned. -/
def try_texture_handle (env : Env) (st : LoadCtx) (texture : String) :
    LoadCtx × Except MatFail (Option String) :=
  if texture = "" then (st, Except.ok none)
  else
    let label := texture_label texture
    let r := load_texture env st texture
    match r.2 with
    | Except.error e => (r.1, Except.error e)
    | Except.ok _ => (r.1, Except.ok (some label))

/-- The `load_material` function: resolve the diffuse, normal, specular and
    ambient texture references in order, then register a `StandardMaterial`
    whose remaining fields keep their engine defaults, and return its handle. -/
def load_material (env : Env) (st : LoadCtx) (material : MtlMaterial) :
    LoadCtx × Except MatFail String :=
  let label := material_label material
  let r1 := try_texture_handle env st material.diffuse_texture
  match r1.2 with
  | Except.error e => (r1.1, Except.error e)
  | Except.ok base_color_texture =>
    let r2 := try_texture_handle env r1.1 material.normal_texture
    match r2.2 with
    | Except.error e => (r2.1, Except.error e)
    | Except.ok normal_map =>
      let r3 := try_texture_handle env r2.1 material.specular_texture
      match r3.2 with
      | Except.error e => (r3.1, Except.error e)
      | Except.ok metallic_roughness_texture =>
        let r4 := try_texture_handle env r3.1 material.ambient_texture
        match r4.2 with
        | Except.error e => (r4.1, Except.error e)
        | Except.ok occlusion_texture =>
          let record : StandardMaterial :=
            { base_color := ⟨material.diffuse.1, material.diffuse.2.1, material.diffuse.2.2⟩
              base_color_texture := base_color_texture
              metallic_roughness_texture := metallic_roughness_texture
              reflectance := material.shininess
              normal_map := normal_map
              occlusion_texture := occlusion_texture }
          let r5 := set_labeled_asset r4.1 label (Asset.material record)
          (r5.1, Except.ok r5.2)

/-- The material loading loop of `load_obj`: load each parsed material in
    order, collecting the handles (any failure short-circuits). -/
def loadMaterials (env : Env) :
    LoadCtx → List MtlMaterial → LoadCtx × Except MatFail (List String)
  | st, [] => (st, Except.ok [])
  | st, m :: rest =>
    let r := load_material env st m
    match r.2 with
    | Except.error e => (r.1, Except.error e)
    | Except.ok h =>
      match loadMaterials env r.1 rest with
      | (st2, Except.error e) => (st2, Except.error e)
      | (st2, Except.ok hs) => (st2, Except.ok (h :: hs))

/-- Processing of one `tobj::Model` inside the scene-building loop: chunk the
    three flat attribute arrays (each `.unwrap()` panics on a chunk failure),
    register the mesh under the model name, look up the optional material
    (an out-of-range id yields none), and register the combined `ObjMesh`
    asset under the positional label. -/
def processModel (loaded : List String) (st : LoadCtx) (i : Nat) (model : TobjModel) :
    LoadCtx × Except PanicInfo (String × SceneNode) :=
  match chunk_by 3 model.mesh.positions with
  | Except.error _ => (st, Except.error PanicInfo.chunkUnwrap)
  | Except.ok positions =>
    match chunk_by 3 model.mesh.normals with
    | Except.error _ => (st, Except.error PanicInfo.chunkUnwrap)
    | Except.ok normals =>
      match chunk_by 2 model.mesh.texcoords with
      | Except.error _ => (st, Except.error PanicInfo.chunkUnwrap)
      | Except.ok uvs =>
        let r1 := set_labeled_asset st (model_label model)
          (Asset.mesh ⟨positions, normals, uvs, model.mesh.indices⟩)
        let material := model.mesh.material_id.bind (fun j => loaded[j]?)
        let r2 := set_labeled_asset r1.1 ("ObjMesh" ++ toString i)
          (Asset.objMesh r1.2 material)
        (r2.1, Except.ok (r2.2, ⟨r1.2, material⟩))

/-- The scene-building loop of `load_obj`: process the models in order with
    their positional index, collecting the `ObjMesh` handles and the scene
    child nodes. -/
def buildMeshes (loaded : List String) :
    LoadCtx → Nat → List TobjModel → LoadCtx × Except PanicInfo (List String × List SceneNode)
  | st, _, [] => (st, Except.ok ([], []))
  | st, i, model :: rest =>
    let r := processModel loaded st i model
    match r.2 with
    | Except.error info => (r.1, Except.error info)
    | Except.ok (h, node) =>
      match buildMeshes loaded r.1 (i + 1) rest with
      | (st2, Except.error info) => (st2, Except.error info)
      | (st2, Except.ok (hs, nodes)) => (st2, Except.ok (h :: hs, node :: nodes))

/-- The `load_obj` function: scan for material libraries (scan failure maps to
    `InvalidObjFormat`), fetch and parse each library (`.unwrap()` panics on a
    fetch failure), parse the geometry through the external parser with the
    resolver callback (`.unwrap()` panics on a parse failure), load the
    materials (anyhow failures map to `InvalidObjFormat`, panics escape),
    build the meshes and scene children, and finally register the aggregate
    `Obj` asset and the `Scene` asset. -/
def load_obj (env : Env) (input : String) : LoadCtx × Except Abort Unit :=
  let st : LoadCtx := ⟨[], []⟩
  match get_material_lib_paths input with
  | Except.error _ => (st, Except.error (Abort.err ObjError.invalidObjFormat))
  | Except.ok pending =>
    match resolveMaterialLibs env st pending with
    | (st1, Except.error info) => (st1, Except.error (Abort.panicked info))
    | (st1, Except.ok index) =>
      match load_obj_buf env (mtlResolver index) with
      | Except.error e => (st1, Except.error (Abort.panicked (PanicInfo.objParseUnwrap e)))
      | Except.ok (models, mats) =>
        match loadMaterials env st1 mats with
        | (st2, Except.error (MatFail.err _)) =>
          (st2, Except.error (Abort.err ObjError.invalidObjFormat))
        | (st2, Except.error (MatFail.fatal info)) =>
          (st2, Except.error (Abort.panicked info))
        | (st2, Except.ok loaded) =>
          match buildMeshes loaded st2 0 models with
          | (st3, Except.error info) => (st3, Except.error (Abort.panicked info))
          | (st3, Except.ok (loadedMeshes, nodes)) =>
            let r1 := set_labeled_asset st3 ("Obj") (Asset.obj loaded loadedMeshes)
            let r2 := set_labeled_asset r1.1 ("Scene") (Asset.scene nodes)
            (r2.1, Except.ok ())

/-- The assets visible to the rest of the engine after a load: bevy applies
    the labeled assets accumulated in the load context only when the loader
    returns `Ok`; a failing (or panicking) load registers nothing. -/
def registeredAssets (r : LoadCtx × Except Abort Unit) : List (String × Asset) :=
  match r.2 with
  | Except.ok _ => r.1.assets
  | Except.error _ => []

/-- The raw mesh records the external parser produced for this input (empty
    when the geometry itself fails to parse). -/
def geometryModels (env : Env) : List TobjModel :=
  match env.objGeometry with
  | Except.ok g => g.1
  | Except.error _ => []

/-- Specification-side view of texture resolution for a channel of a
    material: an empty reference resolves to no texture, a non-empty one to
    the handle labeled by the literal reference string. -/
def texResolution (t : String) : Option String :=
  if t = "" then none else some (texture_label t)

/-- The invariant the spec states for emitted mesh data: normal and uv tuple
    sequences are empty or parallel to the positions (the vertex count), every
    index addresses a vertex, and every tuple has its full width. -/
def meshInvariant (m : MeshData) : Prop :=
  (m.normals.length = m.positions.length ∨ m.normals = [])
  ∧ (m.uvs.length = m.positions.length ∨ m.uvs = [])
  ∧ (∀ i ∈ m.indices, i < m.positions.length)
  ∧ (∀ c ∈ m.positions, c.length = 3)
  ∧ (∀ c ∈ m.normals, c.length = 3)
  ∧ (∀ c ∈ m.uvs, c.length = 2)

instance (m : MeshData) : Decidable (meshInvariant m) := by
  unfold meshInvariant
  exact inferInstance

/-- Modelled from the spec: the well-formedness contract of the raw mesh
    records the external geometry parser produces (spec sections 3 and 4.3,
    which define the parser contract; the parser itself is the external tobj
    crate, not part of this repository): flat positions come in whole triples,
    normals and texcoords are absent or parallel to the positions, and every
    index addresses one of the position triples. -/
def wellFormedMesh (r : RawMesh) : Prop :=
  r.positions.length % 3 = 0
  ∧ (r.normals.length = r.positions.length ∨ r.normals = [])
  ∧ (3 * r.texcoords.length = 2 * r.positions.length ∨ r.texcoords = [])
  ∧ (∀ i ∈ r.indices, 3 * i < r.positions.length)

instance (r : RawMesh) : Decidable (wellFormedMesh r) := by
  unfold wellFormedMesh
  exact inferInstance

/-- A model with its raw mesh's material index replaced. -/
def withMaterialId (m : TobjModel) (mid : Option Nat) : TobjModel :=
  ⟨m.name, ⟨m.mesh.positions, m.mesh.normals, m.mesh.texcoords, m.mesh.indices, mid⟩⟩

/-- Environment for the C2 witness: no material libraries, a single
    well-formed raw mesh record with two vertices, parallel normals and uvs
    and in-range indices. -/
def envInv : Env :=
  ⟨"d", fun _ => none, fun _ => Except.error TobjErr.readError, fun _ _ => none, [],
   Except.ok ([⟨"m", ⟨[1, 2, 3, 4, 5, 6], [7, 7, 7, 7, 7, 7], [0, 0, 1, 1], [0, 1, 1],
     none⟩⟩], [])⟩

/-- Environment for the C3 witness: every fetch fails. -/
def envNoFetch : Env :=
  ⟨"d", fun _ => none, fun _ => Except.error TobjErr.readError, fun _ _ => none, [],
   Except.ok ([], [])⟩

/-- Environment for the C5 and C6 witnesses: every fetch returns one byte and
    every decode succeeds with a texture carrying the fetched bytes. -/
def envTex : Env :=
  ⟨"d", fun _ => some [7], fun _ => Except.ok [],
   fun b _ => some ⟨b, ⟨FilterMode.nearest, FilterMode.nearest⟩, TextureFormat.other⟩,
   [], Except.ok ([], [])⟩

/-- A material referencing one diffuse texture and nothing else. -/
def matDiffuse : MtlMaterial :=
  ⟨"mat1", (1, 0, 0), 32, "t.png", "", "", ""⟩

/-- A second material referencing the same diffuse texture path. -/
def matDiffuse2 : MtlMaterial :=
  ⟨"mat2", (0, 1, 0), 8, "t.png", "", "", ""⟩

/-- Environment for the C6 counterexample: a full load in which two parsed
    materials reference the same literal texture path. -/
def envShared : Env :=
  ⟨"d", fun _ => some [7], fun _ => Except.ok [],
   fun b _ => some ⟨b, ⟨FilterMode.nearest, FilterMode.nearest⟩, TextureFormat.other⟩,
   [], Except.ok ([], [matDiffuse, matDiffuse2])⟩

/-- Environment for the C10 witness: one material library whose bytes fetch
    but whose parse fails, requested by the geometry parse. -/
def envBadMtl : Env :=
  ⟨"d", fun path => if path = "d/bad.mtl" then some [1] else none,
   fun _ => Except.error TobjErr.materialParse, fun _ _ => none,
   ["bad.mtl"], Except.ok ([], [])⟩

theorem rustChunksAux_congr {α : Type} (N : Nat) :
    ∀ (f1 : Nat) (v : List α) (f2 : Nat), v.length ≤ f1 → v.length ≤ f2 →
      rustChunksAux f1 N v = rustChunksAux f2 N v := by
  intro f1
  induction f1 with
  | zero =>
    intro v f2 h1 _
    have hv : v = [] := List.eq_nil_of_length_eq_zero (Nat.le_zero.mp h1)
    subst hv
    cases f2 <;> rfl
  | succ f ih =>
    intro v f2 h1 h2
    match v with
    | [] => cases f2 <;> rfl
    | x :: xs =>
      match f2 with
      | 0 =>
        rw [List.length_cons] at h2
        exact absurd h2 (by omega)
      | g + 1 =>
        show (if N = 0 then _ else _) = (if N = 0 then _ else _)
        by_cases hN : N = 0
        · simp [hN]
        · have hlen : ((x :: xs).drop N).length ≤ f := by
            rw [List.length_drop, List.length_cons]
            rw [List.length_cons] at h1
            omega
          have hlen2 : ((x :: xs).drop N).length ≤ g := by
            rw [List.length_drop, List.length_cons]
            rw [List.length_cons] at h2
            omega
          simp only [hN, if_false]
          rw [ih ((x :: xs).drop N) g hlen hlen2]

theorem rustChunks_nil {α : Type} (N : Nat) : rustChunks (α := α) N [] = [] := by
  simp [rustChunks, rustChunksAux]

theorem rustChunks_cons {α : Type} (N : Nat) (hN : N ≠ 0) (x : α) (xs : List α) :
    rustChunks N (x :: xs) = (x :: xs).take N :: rustChunks N ((x :: xs).drop N) := by
  show rustChunksAux (xs.length + 1) N (x :: xs) = _
  have hstep : rustChunksAux (xs.length + 1) N (x :: xs) =
      (x :: xs).take N :: rustChunksAux xs.length N ((x :: xs).drop N) := by
    simp [rustChunksAux, hN]
  rw [hstep, rustChunks]
  rw [rustChunksAux_congr N xs.length ((x :: xs).drop N) ((x :: xs).drop N).length]
  · rw [List.length_drop, List.length_cons]
    omega
  · exact Nat.le_refl _

theorem exceptMapM_cons_err {α β ε : Type} (f : α → Except ε β) (c : α) (cs : List α)
    (e : ε) (hc : f c = Except.error e) : (c :: cs).mapM f = Except.error e := by
  rw [List.mapM_cons]
  simp only [hc]
  rfl

theorem exceptMapM_cons_ok {α β ε : Type} (f : α → Except ε β) (c : α) (cs : List α)
    (b : β) (bs : List β) (hc : f c = Except.ok b) (hcs : cs.mapM f = Except.ok bs) :
    (c :: cs).mapM f = Except.ok (b :: bs) := by
  rw [List.mapM_cons]
  simp only [hc, hcs]
  rfl

theorem exceptMapM_cons_ok_err {α β ε : Type} (f : α → Except ε β) (c : α) (cs : List α)
    (b : β) (e : ε) (hc : f c = Except.ok b) (hcs : cs.mapM f = Except.error e) :
    (c :: cs).mapM f = Except.error e := by
  rw [List.mapM_cons]
  simp only [hc, hcs]
  rfl

theorem chunk_by_nil {α : Type} (N : Nat) : chunk_by (α := α) N [] = Except.ok [] := by
  simp [chunk_by, rustChunks_nil]
  rfl

/-- Full characterisation of `chunk_by` for a positive tuple width: when the
    flat length is an exact multiple of `N` it succeeds with the consecutive
    `N`-element chunks (zero chunks for the empty array), and otherwise it
    fails with the chunk error. -/
theorem chunk_by_spec {α : Type} (N : Nat) (hN : 0 < N) (v : List α) :
    (v.length % N = 0 →
      ∃ l, chunk_by N v = Except.ok l ∧ l.flatten = v ∧ (∀ c ∈ l, c.length = N) ∧
        l.length = v.length / N)
    ∧ (v.length % N ≠ 0 → chunk_by N v = Except.error ("failed to chunk")) := by
  match v with
  | [] =>
    refine ⟨fun _ => ⟨[], chunk_by_nil N, by simp, by simp, by simp⟩, fun h => ?_⟩
    simp at h
  | x :: xs =>
    have hne : N ≠ 0 := Nat.pos_iff_ne_zero.mp hN
    have hcons : chunk_by N (x :: xs) =
        ((x :: xs).take N :: rustChunks N ((x :: xs).drop N)).mapM (chunkTry N) := by
      unfold chunk_by
      rw [rustChunks_cons N hne x xs]
    by_cases hlen : N ≤ (x :: xs).length
    · have htake : ((x :: xs).take N).length = N := by
        rw [List.length_take]
        exact Nat.min_eq_left hlen
      have htry : chunkTry N ((x :: xs).take N) = Except.ok ((x :: xs).take N) := by
        simp [chunkTry, htake]
      have hdroplen : ((x :: xs).drop N).length = (x :: xs).length - N := by
        simp [List.length_drop]
      have hsum : ((x :: xs).drop N).length + N = (x :: xs).length := by
        rw [hdroplen]
        omega
      have hmodeq : ((x :: xs).drop N).length % N = (x :: xs).length % N := by
        rw [← hsum]
        exact (Nat.add_mod_right _ _).symm
      have ih := chunk_by_spec N hN ((x :: xs).drop N)
      constructor
      · intro hmod
        obtain ⟨l, hok, hjoin, hwidth, hcount⟩ := ih.1 (by rw [hmodeq]; exact hmod)
        refine ⟨(x :: xs).take N :: l, ?_, ?_, ?_, ?_⟩
        · rw [hcons]
          exact exceptMapM_cons_ok _ _ _ _ _ htry hok
        · simp [hjoin, List.take_append_drop]
        · intro c hc
          rcases List.mem_cons.mp hc with h | h
          · rw [h, htake]
          · exact hwidth c h
        · have hdiv : ((x :: xs).drop N).length / N + 1 = (x :: xs).length / N := by
            rw [← hsum]
            exact (Nat.add_div_right _ hN).symm
          rw [List.length_cons, hcount, hdiv]
      · intro hmod
        have herr := ih.2 (by rw [hmodeq]; exact hmod)
        rw [hcons]
        exact exceptMapM_cons_ok_err _ _ _ _ _ htry herr
    · have hlt : (x :: xs).length < N := Nat.lt_of_not_le hlen
      have htake : ((x :: xs).take N) = x :: xs := List.take_of_length_le (Nat.le_of_lt hlt)
      have hmod : (x :: xs).length % N = (x :: xs).length := Nat.mod_eq_of_lt hlt
      have htry : chunkTry N ((x :: xs).take N) = Except.error ("failed to chunk") := by
        have hneq : ¬ xs.length + 1 = N := by
          have hl := hlt
          rw [List.length_cons] at hl
          omega
        simp [chunkTry, htake, hneq]
      constructor
      · intro h
        rw [hmod] at h
        simp at h
      · intro _
        rw [hcons]
        exact exceptMapM_cons_err _ _ _ _ htry
termination_by v.length
decreasing_by
  simp [List.length_drop]
  omega

theorem chunk_by_ok_facts {α : Type} (N : Nat) (hN : 0 < N) (v : List α) (l : List (List α))
    (h : chunk_by N v = Except.ok l) :
    v.length % N = 0 ∧ l.flatten = v ∧ (∀ c ∈ l, c.length = N) ∧ l.length = v.length / N := by
  by_cases hmod : v.length % N = 0
  · obtain ⟨l2, h2, hj, hw, hc⟩ := (chunk_by_spec N hN v).1 hmod
    rw [h] at h2
    cases h2
    exact ⟨hmod, hj, hw, hc⟩
  · have herr := (chunk_by_spec N hN v).2 hmod
    rw [h] at herr
    cases herr

theorem chunk_by_err_of_mod {α : Type} (N : Nat) (hN : 0 < N) (v : List α)
    (h : v.length % N ≠ 0) : chunk_by N v = Except.error ("failed to chunk") :=
  (chunk_by_spec N hN v).2 h

theorem scanLines_skip (line : String) (rest : List String)
    (h : ∀ t, splitWhitespaceR line ≠ "mtllib" :: t) :
    scanLines (line :: rest) = scanLines rest := by
  show (match splitWhitespaceR line with
    | "mtllib" :: tokens =>
      match tokens with
      | [] => Except.error ("invalid mtllib definition")
      | m :: _ =>
        match scanLines rest with
        | Except.ok tail => Except.ok (m :: tail)
        | Except.error e => Except.error e
    | _ => scanLines rest) = scanLines rest
  split
  · rename_i tokens heq
    exact absurd heq (h tokens)
  · rfl

theorem scanLines_cons_mtllib (line : String) (rest : List String) (m : String)
    (ms : List String) (htok : splitWhitespaceR line = "mtllib" :: m :: ms) :
    scanLines (line :: rest) =
      match scanLines rest with
      | Except.ok tail => Except.ok (m :: tail)
      | Except.error e => Except.error e := by
  show (match splitWhitespaceR line with
    | "mtllib" :: tokens =>
      match tokens with
      | [] => Except.error ("invalid mtllib definition")
      | m :: _ =>
        match scanLines rest with
        | Except.ok tail => Except.ok (m :: tail)
        | Except.error e => Except.error e
    | _ => scanLines rest) = _
  rw [htok]
  rfl

theorem scanLines_cons_bad (line : String) (rest : List String)
    (htok : splitWhitespaceR line = ["mtllib"]) :
    scanLines (line :: rest) = Except.error ("invalid mtllib definition") := by
  show (match splitWhitespaceR line with
    | "mtllib" :: tokens =>
      match tokens with
      | [] => Except.error ("invalid mtllib definition")
      | m :: _ =>
        match scanLines rest with
        | Except.ok tail => Except.ok (m :: tail)
        | Except.error e => Except.error e
    | _ => scanLines rest) = _
  rw [htok]
  rfl

theorem mtllibSecondToken_some (line : String) (m : String) (ms : List String)
    (htok : splitWhitespaceR line = "mtllib" :: m :: ms) :
    mtllibSecondToken line = some m := by
  unfold mtllibSecondToken
  rw [htok]
  rfl

theorem mtllibSecondToken_none (line : String)
    (htok : ∀ m ms, splitWhitespaceR line ≠ "mtllib" :: m :: ms) :
    mtllibSecondToken line = none := by
  unfold mtllibSecondToken
  split
  · rename_i m ms heq
    exact absurd heq (htok m ms)
  · rfl

theorem scanLines_ok (lines : List String)
    (h : ∀ line ∈ lines, ∀ t, splitWhitespaceR line = "mtllib" :: t → t ≠ []) :
    scanLines lines = Except.ok (lines.filterMap mtllibSecondToken) := by
  induction lines with
  | nil => rfl
  | cons line rest ih =>
    have hline := h line (List.mem_cons_self _ _)
    have hrest : scanLines rest = Except.ok (rest.filterMap mtllibSecondToken) :=
      ih (fun l hl => h l (List.mem_cons_of_mem _ hl))
    rcases htok : splitWhitespaceR line with _ | ⟨t, ts⟩
    · have hskip := scanLines_skip line rest (by intro t'; rw [htok]; exact fun hc => List.noConfusion hc)
      have hsec : mtllibSecondToken line = none :=
        mtllibSecondToken_none line (fun m ms hc => by rw [htok] at hc; exact List.noConfusion hc)
      rw [List.filterMap_cons, hsec, hskip, hrest]
    · by_cases ht : t = "mtllib"
      · subst ht
        rcases hts : ts with _ | ⟨m, ms⟩
        · subst hts
          exact absurd rfl (hline [] htok)
        · subst hts
          have hsec : mtllibSecondToken line = some m := mtllibSecondToken_some line m ms htok
          rw [scanLines_cons_mtllib line rest m ms htok, hrest, List.filterMap_cons, hsec]
      · have hskip := scanLines_skip line rest
          (by intro t' hc; rw [htok] at hc; injection hc with h1 _; exact ht h1)
        have hsec : mtllibSecondToken line = none :=
          mtllibSecondToken_none line
            (fun m ms hc => by rw [htok] at hc; injection hc with h1 _; exact ht h1)
        rw [List.filterMap_cons, hsec, hskip, hrest]

theorem scanLines_error_iff (lines : List String) :
    (∃ e, scanLines lines = Except.error e) ↔
      ∃ line ∈ lines, splitWhitespaceR line = ["mtllib"] := by
  induction lines with
  | nil =>
    constructor
    · intro ⟨e, he⟩
      exact absurd he (by intro hc; cases hc)
    · intro ⟨line, hl, _⟩
      cases hl
  | cons line rest ih =>
    rcases htok : splitWhitespaceR line with _ | ⟨t, ts⟩
    · have hskip := scanLines_skip line rest (by intro t'; rw [htok]; exact fun hc => List.noConfusion hc)
      rw [hskip]
      rw [ih]
      constructor
      · intro ⟨l, hl, hb⟩
        exact ⟨l, List.mem_cons_of_mem _ hl, hb⟩
      · intro ⟨l, hl, hb⟩
        rcases List.mem_cons.mp hl with heq | hm
        · subst heq
          rw [htok] at hb
          cases hb
        · exact ⟨l, hm, hb⟩
    · by_cases ht : t = "mtllib"
      · subst ht
        rcases hts : ts with _ | ⟨m, ms⟩
        · subst hts
          rw [scanLines_cons_bad line rest htok]
          constructor
          · intro _
            exact ⟨line, List.mem_cons_self _ _, htok⟩
          · intro _
            exact ⟨"invalid mtllib definition", rfl⟩
        · subst hts
          rw [scanLines_cons_mtllib line rest m ms htok]
          constructor
          · intro ⟨e, he⟩
            rcases hr : scanLines rest with e2 | tail
            · obtain ⟨l, hl, hb⟩ := ih.mp ⟨e2, hr⟩
              exact ⟨l, List.mem_cons_of_mem _ hl, hb⟩
            · rw [hr] at he
              cases he
          · intro ⟨l, hl, hb⟩
            rcases List.mem_cons.mp hl with heq | hm
            · subst heq
              rw [htok] at hb
              injection hb with _ h2
              cases h2
            · obtain ⟨e, he⟩ := ih.mpr ⟨l, hm, hb⟩
              rw [he]
              exact ⟨e, rfl⟩
      · have hskip := scanLines_skip line rest
          (by intro t' hc; rw [htok] at hc; injection hc with h1 _; exact ht h1)
        rw [hskip, ih]
        constructor
        · intro ⟨l, hl, hb⟩
          exact ⟨l, List.mem_cons_of_mem _ hl, hb⟩
        · intro ⟨l, hl, hb⟩
          rcases List.mem_cons.mp hl with heq | hm
          · subst heq
            rw [htok] at hb
            injection hb with h1 _
            exact absurd h1 ht
          · exact ⟨l, hm, hb⟩

theorem resolveMaterialLibs_assets (env : Env) (ps : List String) :
    ∀ st : LoadCtx, ((resolveMaterialLibs env st ps).1).assets = st.assets := by
  induction ps with
  | nil => intro st; rfl
  | cons p rest ih =>
    intro st
    show ((match env.fetch (joinPath env.parent p) with
      | none => (_, _)
      | some bytes =>
        match resolveMaterialLibs env ⟨st.fetches ++ [joinPath env.parent p], st.assets⟩ rest with
        | (st2, Except.error info) => (st2, Except.error info)
        | (st2, Except.ok index) => (st2, Except.ok ((p, env.load_mtl bytes) :: index)) :
        LoadCtx × Except PanicInfo (List (String × MtlResult))).1).assets = st.assets
    rcases env.fetch (joinPath env.parent p) with _ | bytes
    · rfl
    · have := ih ⟨st.fetches ++ [joinPath env.parent p], st.assets⟩
      rcases hres : resolveMaterialLibs env ⟨st.fetches ++ [joinPath env.parent p], st.assets⟩ rest
        with ⟨st2, r⟩
      rw [hres] at this
      rcases r with info | index
      · exact this
      · exact this

theorem resolveMaterialLibs_ok (env : Env) (ps : List String)
    (h : ∀ q ∈ ps, ∃ bs, env.fetch (joinPath env.parent q) = some bs) :
    ∀ st : LoadCtx,
      resolveMaterialLibs env st ps =
        (⟨st.fetches ++ ps.map (fun q => joinPath env.parent q), st.assets⟩,
         Except.ok (ps.map
           (fun q => (q, env.load_mtl ((env.fetch (joinPath env.parent q)).getD []))))) := by
  induction ps with
  | nil => intro st; simp [resolveMaterialLibs]
  | cons p rest ih =>
    intro st
    obtain ⟨bs, hbs⟩ := h p (List.mem_cons_self _ _)
    have hrest := ih (fun q hq => h q (List.mem_cons_of_mem _ hq))
      ⟨st.fetches ++ [joinPath env.parent p], st.assets⟩
    show (match (read_asset_bytes env st (joinPath env.parent p)).2 with
      | none => ((read_asset_bytes env st (joinPath env.parent p)).1,
          Except.error (PanicInfo.fetchUnwrap (joinPath env.parent p)))
      | some bytes =>
        match resolveMaterialLibs env (read_asset_bytes env st (joinPath env.parent p)).1 rest with
        | (st2, Except.error info) => (st2, Except.error info)
        | (st2, Except.ok index) => (st2, Except.ok ((p, env.load_mtl bytes) :: index))) = _
    have hreq : (read_asset_bytes env st (joinPath env.parent p)).2 = some bs := hbs
    have hst : (read_asset_bytes env st (joinPath env.parent p)).1 =
        ⟨st.fetches ++ [joinPath env.parent p], st.assets⟩ := rfl
    rw [hreq, hst, hrest]
    simp [hbs]

theorem resolveMaterialLibs_err (env : Env) (ps : List String) (p0 : String)
    (h : ps.find? (fun p => (env.fetch (joinPath env.parent p)).isNone) = some p0) :
    ∀ st : LoadCtx, ∃ st' : LoadCtx,
      resolveMaterialLibs env st ps =
        (st', Except.error (PanicInfo.fetchUnwrap (joinPath env.parent p0))) := by
  induction ps with
  | nil => intro st; cases h
  | cons p rest ih =>
    intro st
    show ∃ st', (match (read_asset_bytes env st (joinPath env.parent p)).2 with
      | none => ((read_asset_bytes env st (joinPath env.parent p)).1,
          Except.error (PanicInfo.fetchUnwrap (joinPath env.parent p)))
      | some bytes =>
        match resolveMaterialLibs env (read_asset_bytes env st (joinPath env.parent p)).1 rest with
        | (st2, Except.error info) => (st2, Except.error info)
        | (st2, Except.ok index) => (st2, Except.ok ((p, env.load_mtl bytes) :: index))) =
      (st', Except.error (PanicInfo.fetchUnwrap (joinPath env.parent p0)))
    by_cases hp : (env.fetch (joinPath env.parent p)).isNone
    · have hp0 : p = p0 := by
        rw [List.find?_cons_of_pos _ (by exact hp)] at h
        exact Option.some_injective _ h
      subst hp0
      have hnone : (read_asset_bytes env st (joinPath env.parent p)).2 = none :=
        Option.isNone_iff_eq_none.mp hp
      rw [hnone]
      exact ⟨_, rfl⟩
    · have hfind : rest.find? (fun q => (env.fetch (joinPath env.parent q)).isNone) = some p0 := by
        rw [List.find?_cons_of_neg _ (by exact hp)] at h
        exact h
      obtain ⟨bs, hbs⟩ : ∃ bs, env.fetch (joinPath env.parent p) = some bs := by
        rcases hf : env.fetch (joinPath env.parent p) with _ | b
        · rw [hf] at hp
          exact absurd rfl hp
        · exact ⟨b, rfl⟩
      obtain ⟨st', hst'⟩ := ih hfind ⟨st.fetches ++ [joinPath env.parent p], st.assets⟩
      have hreq : (read_asset_bytes env st (joinPath env.parent p)).2 = some bs := hbs
      rw [hreq]
      have hst : (read_asset_bytes env st (joinPath env.parent p)).1 =
          ⟨st.fetches ++ [joinPath env.parent p], st.assets⟩ := rfl
      rw [hst, hst']
      exact ⟨st', rfl⟩

theorem hmLookup_map {β : Type} (g : String → β) (ps : List String) (p : String) :
    hmLookup (ps.map (fun q => (q, g q))) p = if p ∈ ps then some (g p) else none := by
  induction ps with
  | nil => simp [hmLookup]
  | cons q rest ih =>
    show (match hmLookup (rest.map (fun q => (q, g q))) p with
      | some r => some r
      | none => if q = p then some (g q) else none) = _
    rw [ih]
    by_cases hmem : p ∈ rest
    · simp [hmem]
    · by_cases hqp : q = p
      · subst hqp
        simp [hmem]
      · simp [hmem, hqp, Ne.symm hqp]

theorem firstError_ok (rs : List MtlResult) (h : ∀ r ∈ rs, ∃ a, r = Except.ok a) :
    firstError rs = none := by
  induction rs with
  | nil => rfl
  | cons r rest ih =>
    obtain ⟨a, ha⟩ := h r (List.mem_cons_self _ _)
    subst ha
    exact ih (fun r2 h2 => h r2 (List.mem_cons_of_mem _ h2))

theorem firstError_mem (reqs : List String) (resolve : String → MtlResult) (p : String)
    (e : TobjErr) (hp : p ∈ reqs) (hres : resolve p = Except.error e)
    (hothers : ∀ q ∈ reqs, q ≠ p → ∃ ms, resolve q = Except.ok ms) :
    firstError (reqs.map resolve) = some e := by
  induction reqs with
  | nil => cases hp
  | cons q rest ih =>
    by_cases hqp : q = p
    · subst hqp
      rw [List.map_cons, hres]
      rfl
    · obtain ⟨ms, hms⟩ := hothers q (List.mem_cons_self _ _) hqp
      rw [List.map_cons, hms]
      have hp2 : p ∈ rest := by
        rcases List.mem_cons.mp hp with heq | hm
        · exact absurd heq.symm hqp
        · exact hm
      exact ih hp2 (fun r hr hne => hothers r (List.mem_cons_of_mem _ hr) hne)

theorem load_texture_assets (env : Env) (st : LoadCtx) (t : String) :
    ∃ new, (load_texture env st t).1.assets = st.assets ++ new ∧
      ∀ a ∈ new, ∃ tex, (a : String × Asset).2 = Asset.texture tex := by
  simp only [load_texture, read_asset_bytes, set_labeled_asset]
  cases hf : env.fetch (joinPath env.parent t) with
  | none => exact ⟨[], by simp [hf], by simp⟩
  | some bs =>
    cases hx : pathExt (joinPath env.parent t) with
    | none => exact ⟨[], by simp [hf, hx], by simp⟩
    | some ext =>
      cases hd : env.from_buffer bs ext with
      | none => exact ⟨[], by simp [hf, hx, hd], by simp⟩
      | some tex =>
        refine ⟨[(texture_label t,
          Asset.texture ⟨tex.data, texture_sampler, TextureFormat.rgba8UnormSrgb⟩)],
          by simp [hf, hx, hd], ?_⟩
        intro a ha
        rw [List.mem_singleton.mp ha]
        exact ⟨_, rfl⟩

theorem try_texture_handle_assets (env : Env) (st : LoadCtx) (t : String) :
    ∃ new, (try_texture_handle env st t).1.assets = st.assets ++ new ∧
      ∀ a ∈ new, ∃ tex, (a : String × Asset).2 = Asset.texture tex := by
  by_cases ht : t = ""
  · subst ht
    exact ⟨[], by simp [try_texture_handle], by simp⟩
  · obtain ⟨new, hnew, hall⟩ := load_texture_assets env st t
    simp only [try_texture_handle, ht, if_false]
    cases hr : (load_texture env st t).2 with
    | error e => exact ⟨new, hnew, hall⟩
    | ok u => exact ⟨new, hnew, hall⟩

theorem load_material_assets (env : Env) (st : LoadCtx) (m : MtlMaterial) :
    ∃ new, (load_material env st m).1.assets = st.assets ++ new ∧
      ∀ a ∈ new, (∃ t, (a : String × Asset).2 = Asset.texture t) ∨
        ∃ r, a.2 = Asset.material r := by
  simp only [load_material, set_labeled_asset]
  obtain ⟨n1, h1, ha1⟩ := try_texture_handle_assets env st m.diffuse_texture
  cases hr1 : (try_texture_handle env st m.diffuse_texture).2 with
  | error e1 => exact ⟨n1, h1, fun a ha => Or.inl (ha1 a ha)⟩
  | ok v1 =>
    obtain ⟨n2, h2, ha2⟩ :=
      try_texture_handle_assets env (try_texture_handle env st m.diffuse_texture).1
        m.normal_texture
    cases hr2 : (try_texture_handle env (try_texture_handle env st m.diffuse_texture).1
        m.normal_texture).2 with
    | error e2 =>
      refine ⟨n1 ++ n2, by rw [h2, h1, List.append_assoc], fun a ha => Or.inl ?_⟩
      rcases List.mem_append.mp ha with hm | hm
      · exact ha1 a hm
      · exact ha2 a hm
    | ok v2 =>
      obtain ⟨n3, h3, ha3⟩ :=
        try_texture_handle_assets env
          (try_texture_handle env (try_texture_handle env st m.diffuse_texture).1
            m.normal_texture).1 m.specular_texture
      cases hr3 : (try_texture_handle env
          (try_texture_handle env (try_texture_handle env st m.diffuse_texture).1
            m.normal_texture).1 m.specular_texture).2 with
      | error e3 =>
        refine ⟨n1 ++ (n2 ++ n3), by rw [h3, h2, h1]; simp [List.append_assoc],
          fun a ha => Or.inl ?_⟩
        rcases List.mem_append.mp ha with hm | hm
        · exact ha1 a hm
        rcases List.mem_append.mp hm with hm2 | hm2
        · exact ha2 a hm2
        · exact ha3 a hm2
      | ok v3 =>
        obtain ⟨n4, h4, ha4⟩ :=
          try_texture_handle_assets env
            (try_texture_handle env
              (try_texture_handle env (try_texture_handle env st m.diffuse_texture).1
                m.normal_texture).1 m.specular_texture).1 m.ambient_texture
        cases hr4 : (try_texture_handle env
            (try_texture_handle env
              (try_texture_handle env (try_texture_handle env st m.diffuse_texture).1
                m.normal_texture).1 m.specular_texture).1 m.ambient_texture).2 with
        | error e4 =>
          refine ⟨n1 ++ (n2 ++ (n3 ++ n4)), by rw [h4, h3, h2, h1]; simp [List.append_assoc],
            fun a ha => Or.inl ?_⟩
          rcases List.mem_append.mp ha with hm | hm
          · exact ha1 a hm
          rcases List.mem_append.mp hm with hm2 | hm2
          · exact ha2 a hm2
          rcases List.mem_append.mp hm2 with hm3 | hm3
          · exact ha3 a hm3
          · exact ha4 a hm3
        | ok v4 =>
          refine ⟨n1 ++ (n2 ++ (n3 ++ (n4 ++ [(material_label m, Asset.material
            { base_color := ⟨m.diffuse.1, m.diffuse.2.1, m.diffuse.2.2⟩
              base_color_texture := v1
              metallic_roughness_texture := v3
              reflectance := m.shininess
              normal_map := v2
              occlusion_texture := v4 })]))),
            by rw [h4, h3, h2, h1]; simp [List.append_assoc], ?_⟩
          intro a ha
          rcases List.mem_append.mp ha with hm | hm
          · exact Or.inl (ha1 a hm)
          rcases List.mem_append.mp hm with hm2 | hm2
          · exact Or.inl (ha2 a hm2)
          rcases List.mem_append.mp hm2 with hm3 | hm3
          · exact Or.inl (ha3 a hm3)
          rcases List.mem_append.mp hm3 with hm4 | hm4
          · exact Or.inl (ha4 a hm4)
          · rw [List.mem_singleton.mp hm4]
            exact Or.inr ⟨_, rfl⟩

theorem loadMaterials_assets (env : Env) (ms : List MtlMaterial) :
    ∀ st : LoadCtx, ∃ new, ((loadMaterials env st ms).1).assets = st.assets ++ new ∧
      ∀ a ∈ new, (∃ t, (a : String × Asset).2 = Asset.texture t) ∨
        ∃ r, a.2 = Asset.material r := by
  induction ms with
  | nil => intro st; exact ⟨[], by simp [loadMaterials], by simp⟩
  | cons m rest ih =>
    intro st
    obtain ⟨n1, h1, ha1⟩ := load_material_assets env st m
    show ∃ new, ((match (load_material env st m).2 with
      | Except.error e => ((load_material env st m).1, Except.error e)
      | Except.ok h =>
        match loadMaterials env (load_material env st m).1 rest with
        | (st2, Except.error e) => (st2, Except.error e)
        | (st2, Except.ok hs) => (st2, Except.ok (h :: hs))).1).assets = st.assets ++ new ∧ _
    cases hr : (load_material env st m).2 with
    | error e => exact ⟨n1, h1, fun a ha => ha1 a ha⟩
    | ok h =>
      obtain ⟨n2, h2, ha2⟩ := ih (load_material env st m).1
      cases hrest : loadMaterials env (load_material env st m).1 rest with
      | mk st2 r2 =>
        have hassets : st2.assets = st.assets ++ (n1 ++ n2) := by
          have := h2
          rw [hrest] at this
          simp at this
          rw [this, h1, List.append_assoc]
        cases r2 with
        | error e =>
          refine ⟨n1 ++ n2, hassets, ?_⟩
          intro a ha
          rcases List.mem_append.mp ha with hm | hm
          · exact ha1 a hm
          · exact ha2 a hm
        | ok hs =>
          refine ⟨n1 ++ n2, hassets, ?_⟩
          intro a ha
          rcases List.mem_append.mp ha with hm | hm
          · exact ha1 a hm
          · exact ha2 a hm

theorem try_texture_handle_empty (env : Env) (st : LoadCtx) :
    try_texture_handle env st ("") = (st, Except.ok none) := rfl

theorem try_texture_handle_ok_val (env : Env) (st : LoadCtx) (t : String)
    (o : Option String) (h : (try_texture_handle env st t).2 = Except.ok o) :
    o = texResolution t := by
  by_cases ht : t = ""
  · subst ht
    rw [try_texture_handle_empty] at h
    cases h
    rfl
  · simp only [try_texture_handle, ht, if_false] at h
    cases hr : (load_texture env st t).2 with
    | error e =>
      rw [hr] at h
      cases h
    | ok u =>
      rw [hr] at h
      cases h
      simp [texResolution, ht]

theorem try_texture_handle_success (env : Env) (st : LoadCtx) (t : String)
    (bs : Bytes) (ext : String) (tex : Texture) (ht : t ≠ "")
    (hf : env.fetch (joinPath env.parent t) = some bs)
    (hx : pathExt (joinPath env.parent t) = some ext)
    (hd : env.from_buffer bs ext = some tex) :
    try_texture_handle env st t =
      (⟨st.fetches ++ [joinPath env.parent t],
        st.assets ++ [(texture_label t,
          Asset.texture ⟨tex.data, texture_sampler, TextureFormat.rgba8UnormSrgb⟩)]⟩,
       Except.ok (some (texture_label t))) := by
  simp only [try_texture_handle, ht, if_false, load_texture, read_asset_bytes,
    set_labeled_asset]
  simp [hf, hx, hd]

theorem load_material_ok_shape (env : Env) (st : LoadCtx) (m : MtlMaterial)
    (hdl : String) (h : (load_material env st m).2 = Except.ok hdl) :
    hdl = material_label m ∧
    ∃ pre, (load_material env st m).1.assets = st.assets ++ pre ++
        [(material_label m, Asset.material
          { base_color := ⟨m.diffuse.1, m.diffuse.2.1, m.diffuse.2.2⟩
            base_color_texture := texResolution m.diffuse_texture
            metallic_roughness_texture := texResolution m.specular_texture
            reflectance := m.shininess
            normal_map := texResolution m.normal_texture
            occlusion_texture := texResolution m.ambient_texture })] ∧
      ∀ a ∈ pre, ∃ t, (a : String × Asset).2 = Asset.texture t := by
  simp only [load_material, set_labeled_asset] at h ⊢
  cases hr1 : (try_texture_handle env st m.diffuse_texture).2 with
  | error e1 => rw [hr1] at h; cases h
  | ok v1 =>
    rw [hr1] at h
    have hv1 := try_texture_handle_ok_val env st m.diffuse_texture v1 hr1
    obtain ⟨n1, hn1, ha1⟩ := try_texture_handle_assets env st m.diffuse_texture
    cases hr2 : (try_texture_handle env (try_texture_handle env st m.diffuse_texture).1
        m.normal_texture).2 with
    | error e2 => rw [hr2] at h; cases h
    | ok v2 =>
      rw [hr2] at h
      have hv2 := try_texture_handle_ok_val env _ m.normal_texture v2 hr2
      obtain ⟨n2, hn2, ha2⟩ :=
        try_texture_handle_assets env (try_texture_handle env st m.diffuse_texture).1
          m.normal_texture
      cases hr3 : (try_texture_handle env
          (try_texture_handle env (try_texture_handle env st m.diffuse_texture).1
            m.normal_texture).1 m.specular_texture).2 with
      | error e3 => rw [hr3] at h; cases h
      | ok v3 =>
        rw [hr3] at h
        have hv3 := try_texture_handle_ok_val env _ m.specular_texture v3 hr3
        obtain ⟨n3, hn3, ha3⟩ :=
          try_texture_handle_assets env
            (try_texture_handle env (try_texture_handle env st m.diffuse_texture).1
              m.normal_texture).1 m.specular_texture
        cases hr4 : (try_texture_handle env
            (try_texture_handle env
              (try_texture_handle env (try_texture_handle env st m.diffuse_texture).1
                m.normal_texture).1 m.specular_texture).1 m.ambient_texture).2 with
        | error e4 => rw [hr4] at h; cases h
        | ok v4 =>
          rw [hr4] at h
          have hv4 := try_texture_handle_ok_val env _ m.ambient_texture v4 hr4
          obtain ⟨n4, hn4, ha4⟩ :=
            try_texture_handle_assets env
              (try_texture_handle env
                (try_texture_handle env (try_texture_handle env st m.diffuse_texture).1
                  m.normal_texture).1 m.specular_texture).1 m.ambient_texture
          cases h
          refine ⟨rfl, n1 ++ (n2 ++ (n3 ++ n4)), ?_, ?_⟩
          · rw [hn4, hn3, hn2, hn1, hv1, hv2, hv3, hv4]
            simp [List.append_assoc]
          · intro a ha
            rcases List.mem_append.mp ha with hm | hm
            · exact ha1 a hm
            rcases List.mem_append.mp hm with hm2 | hm2
            · exact ha2 a hm2
            rcases List.mem_append.mp hm2 with hm3 | hm3
            · exact ha3 a hm3
            · exact ha4 a hm3

theorem processModel_ok_shape (loaded : List String) (st : LoadCtx) (i : Nat)
    (model : TobjModel) (st' : LoadCtx) (r : String × SceneNode)
    (h : processModel loaded st i model = (st', Except.ok r)) :
    ∃ pos nor uv, chunk_by 3 model.mesh.positions = Except.ok pos ∧
      chunk_by 3 model.mesh.normals = Except.ok nor ∧
      chunk_by 2 model.mesh.texcoords = Except.ok uv ∧
      st' = ⟨st.fetches, st.assets ++
        [(model_label model, Asset.mesh ⟨pos, nor, uv, model.mesh.indices⟩),
         ("ObjMesh" ++ toString i, Asset.objMesh (model_label model)
           (model.mesh.material_id.bind (fun j => loaded[j]?)))]⟩ ∧
      r = ("ObjMesh" ++ toString i, ⟨model_label model,
        model.mesh.material_id.bind (fun j => loaded[j]?)⟩) := by
  simp only [processModel, set_labeled_asset] at h
  cases h1 : chunk_by 3 model.mesh.positions with
  | error e => rw [h1] at h; cases h
  | ok pos =>
    rw [h1] at h
    cases h2 : chunk_by 3 model.mesh.normals with
    | error e => rw [h2] at h; cases h
    | ok nor =>
      rw [h2] at h
      cases h3 : chunk_by 2 model.mesh.texcoords with
      | error e => rw [h3] at h; cases h
      | ok uv =>
        rw [h3] at h
        cases h
        refine ⟨pos, nor, uv, rfl, rfl, rfl, ?_, rfl⟩
        simp [List.append_assoc]

theorem processModel_err_shape (loaded : List String) (st : LoadCtx) (i : Nat)
    (model : TobjModel) (st' : LoadCtx) (info : PanicInfo)
    (h : processModel loaded st i model = (st', Except.error info)) : st' = st := by
  simp only [processModel, set_labeled_asset] at h
  cases h1 : chunk_by 3 model.mesh.positions with
  | error e => rw [h1] at h; cases h; rfl
  | ok pos =>
    rw [h1] at h
    cases h2 : chunk_by 3 model.mesh.normals with
    | error e => rw [h2] at h; cases h; rfl
    | ok nor =>
      rw [h2] at h
      cases h3 : chunk_by 2 model.mesh.texcoords with
      | error e => rw [h3] at h; cases h; rfl
      | ok uv => rw [h3] at h; cases h

theorem processModel_err_of_bad (loaded : List String) (st : LoadCtx) (i : Nat)
    (model : TobjModel) (h : model.mesh.positions.length % 3 ≠ 0) :
    processModel loaded st i model = (st, Except.error PanicInfo.chunkUnwrap) := by
  have herr := chunk_by_err_of_mod 3 (by omega) model.mesh.positions h
  simp only [processModel, herr]

theorem buildMeshes_assets (loaded : List String) (ms : List TobjModel) :
    ∀ (st : LoadCtx) (i : Nat), ∀ a ∈ ((buildMeshes loaded st i ms).1).assets,
      a ∈ st.assets ∨
      (∃ model ∈ ms, ∃ pos nor uv, chunk_by 3 model.mesh.positions = Except.ok pos ∧
        chunk_by 3 model.mesh.normals = Except.ok nor ∧
        chunk_by 2 model.mesh.texcoords = Except.ok uv ∧
        a = (model_label model, Asset.mesh ⟨pos, nor, uv, model.mesh.indices⟩)) ∨
      (∃ hm mt, (a : String × Asset).2 = Asset.objMesh hm mt) := by
  induction ms with
  | nil => intro st i a ha; exact Or.inl ha
  | cons model rest ih =>
    intro st i a ha
    show a ∈ st.assets ∨
      (∃ mm ∈ model :: rest, _) ∨ _
    have hstep : (buildMeshes loaded st i (model :: rest)) =
        (match (processModel loaded st i model).2 with
        | Except.error info => ((processModel loaded st i model).1, Except.error info)
        | Except.ok (h, node) =>
          match buildMeshes loaded (processModel loaded st i model).1 (i + 1) rest with
          | (st2, Except.error info) => (st2, Except.error info)
          | (st2, Except.ok (hs, nodes)) => (st2, Except.ok (h :: hs, node :: nodes))) := rfl
    rw [hstep] at ha
    cases hp : (processModel loaded st i model).2 with
    | error info =>
      rw [hp] at ha
      have hshape := processModel_err_shape loaded st i model _ info
        (by rw [← hp])
      simp only [] at ha
      rw [hshape] at ha
      exact Or.inl ha
    | ok hr =>
      rcases hr with ⟨h, node⟩
      rw [hp] at ha
      obtain ⟨pos, nor, uv, hc1, hc2, hc3, hst, hrr⟩ :=
        processModel_ok_shape loaded st i model _ _ (by rw [← hp])
      rcases hrest : buildMeshes loaded (processModel loaded st i model).1 (i + 1) rest
        with ⟨st2, r2⟩
      have hmem2 : a ∈ st2.assets := by
        rw [hrest] at ha
        rcases r2 with e | ⟨hs, nodes⟩
        · exact ha
        · exact ha
      have := ih (processModel loaded st i model).1 (i + 1) a
        (by rw [hrest]; exact hmem2)
      rcases this with hin | hshape2 | hobj
      · rw [hst] at hin
        rcases List.mem_append.mp hin with hm | hm
        · exact Or.inl hm
        · rcases List.mem_cons.mp hm with heq | hm2
          · exact Or.inr (Or.inl ⟨model, List.mem_cons_self _ _, pos, nor, uv,
              hc1, hc2, hc3, heq⟩)
          · rw [List.mem_singleton.mp hm2]
            exact Or.inr (Or.inr ⟨_, _, rfl⟩)
      · obtain ⟨mm, hmm, rest_shape⟩ := hshape2
        exact Or.inr (Or.inl ⟨mm, List.mem_cons_of_mem _ hmm, rest_shape⟩)
      · exact Or.inr (Or.inr hobj)

theorem buildMeshes_err_of_bad (loaded : List String) (ms : List TobjModel)
    (hbad : ∃ model ∈ ms, model.mesh.positions.length % 3 ≠ 0) :
    ∀ (st : LoadCtx) (i : Nat), ∃ st' info,
      buildMeshes loaded st i ms = (st', Except.error info) := by
  induction ms with
  | nil =>
    obtain ⟨model, hm, _⟩ := hbad
    cases hm
  | cons model rest ih =>
    intro st i
    have hstep : (buildMeshes loaded st i (model :: rest)) =
        (match (processModel loaded st i model).2 with
        | Except.error info => ((processModel loaded st i model).1, Except.error info)
        | Except.ok (h, node) =>
          match buildMeshes loaded (processModel loaded st i model).1 (i + 1) rest with
          | (st2, Except.error info) => (st2, Except.error info)
          | (st2, Except.ok (hs, nodes)) => (st2, Except.ok (h :: hs, node :: nodes))) := rfl
    cases hp : (processModel loaded st i model).2 with
    | error info =>
      rw [hstep, hp]
      exact ⟨_, info, rfl⟩
    | ok hr =>
      rcases hr with ⟨h, node⟩
      have hbad2 : ∃ mm ∈ rest, mm.mesh.positions.length % 3 ≠ 0 := by
        rcases hbad with ⟨mm, hmm, hb⟩
        rcases List.mem_cons.mp hmm with heq | hm2
        · subst heq
          have := processModel_err_of_bad loaded st i mm hb
          rw [this] at hp
          cases hp
        · exact ⟨mm, hm2, hb⟩
      obtain ⟨st2, info2, hrest⟩ := ih hbad2 (processModel loaded st i model).1 (i + 1)
      rw [hstep, hp, hrest]
      exact ⟨st2, info2, rfl⟩

theorem load_obj_buf_ok (env : Env) (resolve : String → MtlResult)
    (g : List TobjModel × List MtlMaterial) (h : load_obj_buf env resolve = Except.ok g) :
    env.objGeometry = Except.ok g := by
  unfold load_obj_buf at h
  cases hf : firstError (env.objRequests.map resolve) with
  | none => rw [hf] at h; exact h
  | some e => rw [hf] at h; cases h

theorem load_obj_mesh_assets (env : Env) (input : String) (label : String) (m : MeshData)
    (hmem : (label, Asset.mesh m) ∈ registeredAssets (load_obj env input)) :
    ∃ model ∈ geometryModels env, ∃ pos nor uv,
      chunk_by 3 model.mesh.positions = Except.ok pos ∧
      chunk_by 3 model.mesh.normals = Except.ok nor ∧
      chunk_by 2 model.mesh.texcoords = Except.ok uv ∧
      m = ⟨pos, nor, uv, model.mesh.indices⟩ := by
  unfold registeredAssets at hmem
  cases hres : (load_obj env input).2 with
  | error e =>
    rw [hres] at hmem
    cases hmem
  | ok u =>
    rw [hres] at hmem
    cases hscan : get_material_lib_paths input with
    | error e =>
      simp only [load_obj, hscan] at hres
      cases hres
    | ok pending =>
      rcases hres2 : resolveMaterialLibs env ⟨[], []⟩ pending with ⟨st1, r1⟩
      cases r1 with
      | error info =>
        simp only [load_obj, hscan, hres2] at hres
        cases hres
      | ok index =>
        cases hbuf : load_obj_buf env (mtlResolver index) with
        | error e =>
          simp only [load_obj, hscan, hres2, hbuf] at hres
          cases hres
        | ok g =>
          rcases g with ⟨models, mats⟩
          rcases hmats : loadMaterials env st1 mats with ⟨st2, r2⟩
          cases r2 with
          | error f =>
            cases f with
            | err e =>
              simp only [load_obj, hscan, hres2, hbuf, hmats] at hres
              cases hres
            | fatal info =>
              simp only [load_obj, hscan, hres2, hbuf, hmats] at hres
              cases hres
          | ok loaded =>
            rcases hmesh : buildMeshes loaded st2 0 models with ⟨st3, r3⟩
            cases r3 with
            | error info =>
              simp only [load_obj, hscan, hres2, hbuf, hmats, hmesh] at hres
              cases hres
            | ok pr =>
              rcases pr with ⟨loadedMeshes, nodes⟩
              simp only [load_obj, hscan, hres2, hbuf, hmats, hmesh,
                set_labeled_asset] at hmem
              rcases List.mem_append.mp hmem with hm | hm
              · rcases List.mem_append.mp hm with hm2 | hm2
                · -- inside st3.assets: came from buildMeshes
                  have hprov := buildMeshes_assets loaded models st2 0 (label, Asset.mesh m)
                    (by rw [hmesh]; exact hm2)
                  rcases hprov with hin | hshape | hobj
                  · -- inside st2.assets: material stage only adds textures/materials
                    obtain ⟨new, hnew, hall⟩ := loadMaterials_assets env mats st1
                    rw [hmats] at hnew
                    simp only [] at hnew
                    rw [hnew] at hin
                    have hst1 : st1.assets = ([] : List (String × Asset)) := by
                      have := resolveMaterialLibs_assets env pending ⟨[], []⟩
                      rw [hres2] at this
                      exact this
                    rw [hst1] at hin
                    simp only [List.nil_append] at hin
                    rcases hall (label, Asset.mesh m) hin with ⟨t, ht⟩ | ⟨r, hr⟩
                    · cases ht
                    · cases hr
                  · obtain ⟨model, hmm, pos, nor, uv, hc1, hc2, hc3, heq⟩ := hshape
                    have hgeo : geometryModels env = models := by
                      unfold geometryModels
                      rw [load_obj_buf_ok env (mtlResolver index) (models, mats) hbuf]
                    injection heq with _ h2
                    injection h2 with h3
                    exact ⟨model, by rw [hgeo]; exact hmm, pos, nor, uv, hc1, hc2, hc3, h3⟩
                  · obtain ⟨hm2, mt, hobj2⟩ := hobj
                    cases hobj2
                · cases List.mem_singleton.mp hm2
              · cases List.mem_singleton.mp hm

/-- C1: for every flat numeric array `v` and positive tuple width `N` (3 for
    positions and normals, 2 for texcoords), `chunk_by` succeeds if and only
    if the length of `v` is an exact multiple of `N`, in which case it yields
    the `v.length / N` consecutive `N`-element tuples of `v` in order; the
    empty array yields zero tuples and is not an error; a length that is not
    a multiple of `N` fails with the chunk error, and a raw mesh whose flat
    position array has such a length makes the whole mesh-building stage of
    the load (and hence the load itself, which propagates that stage's
    failure) abort, even when sibling records are well-formed. -/
theorem chunk_by_chunking_correct {α : Type} (N : Nat) (v : List α) (hN : 0 < N) :
    ((∃ l, chunk_by N v = Except.ok l) ↔ v.length % N = 0) ∧
    (∀ l, chunk_by N v = Except.ok l →
      l.length = v.length / N ∧ l.flatten = v ∧ ∀ c ∈ l, c.length = N) ∧
    chunk_by N ([] : List α) = Except.ok [] ∧
    (v.length % N ≠ 0 → chunk_by N v = Except.error ("failed to chunk")) ∧
    (∀ (loaded : List String) (st : LoadCtx) (i : Nat) (ms : List TobjModel),
      (∃ model ∈ ms, model.mesh.positions.length % 3 ≠ 0) →
      ∃ st' info, buildMeshes loaded st i ms = (st', Except.error info)) := by
  refine ⟨⟨?_, ?_⟩, ?_, chunk_by_nil N, (chunk_by_spec N hN v).2, ?_⟩
  · intro ⟨l, hl⟩
    exact (chunk_by_ok_facts N hN v l hl).1
  · intro hmod
    obtain ⟨l, hl, _⟩ := (chunk_by_spec N hN v).1 hmod
    exact ⟨l, hl⟩
  · intro l hl
    obtain ⟨_, hj, hw, hc⟩ := chunk_by_ok_facts N hN v l hl
    exact ⟨hc, hj, hw⟩
  · intro loaded st i ms hbad
    exact buildMeshes_err_of_bad loaded ms hbad st i

/-- Witness for C1 at `N = 3` and a concrete six-element array. -/
theorem chunk_by_chunking_correct_witness :
    (0 : Nat) < 3 ∧
    (((∃ l, chunk_by 3 [(1 : F32), 2, 3, 4, 5, 6] = Except.ok l) ↔
        ([(1 : F32), 2, 3, 4, 5, 6].length % 3 = 0)) ∧
      (∀ l, chunk_by 3 [(1 : F32), 2, 3, 4, 5, 6] = Except.ok l →
        l.length = [(1 : F32), 2, 3, 4, 5, 6].length / 3 ∧
        l.flatten = [(1 : F32), 2, 3, 4, 5, 6] ∧ ∀ c ∈ l, c.length = 3) ∧
      chunk_by 3 ([] : List F32) = Except.ok [] ∧
      ([(1 : F32), 2, 3, 4, 5, 6].length % 3 ≠ 0 →
        chunk_by 3 [(1 : F32), 2, 3, 4, 5, 6] = Except.error ("failed to chunk")) ∧
      (∀ (loaded : List String) (st : LoadCtx) (i : Nat) (ms : List TobjModel),
        (∃ model ∈ ms, model.mesh.positions.length % 3 ≠ 0) →
        ∃ st' info, buildMeshes loaded st i ms = (st', Except.error info))) :=
  ⟨by decide, chunk_by_chunking_correct 3 [(1 : F32), 2, 3, 4, 5, 6] (by decide)⟩

/-- C4: for every input whose `mtllib` lines all carry a second token, the
    scanner returns exactly the second whitespace-separated token of each line
    whose first whitespace-separated token is `mtllib`, in encounter order
    with duplicates retained (so an input with zero `mtllib` lines yields the
    empty sequence, since no line contributes). -/
theorem get_material_lib_paths_scan_correct (s : String)
    (h : ∀ line ∈ rustLines s, splitWhitespaceR line ≠ ["mtllib"]) :
    get_material_lib_paths s = Except.ok ((rustLines s).filterMap mtllibSecondToken) :=
  scanLines_ok (rustLines s)
    (fun line hl t htok hte => h line hl (by rw [htok, hte]))

/-- Witness for C4: a concrete input with two distinct `mtllib` paths, one
    repeated, interleaved with other lines. -/
theorem get_material_lib_paths_scan_correct_witness :
    (∀ line ∈ rustLines ("mtllib a.mtl\nv 1 2 3\nmtllib a.mtl\nmtllib b.mtl"),
      splitWhitespaceR line ≠ ["mtllib"]) ∧
    get_material_lib_paths ("mtllib a.mtl\nv 1 2 3\nmtllib a.mtl\nmtllib b.mtl") =
      Except.ok (["a.mtl", "a.mtl", "b.mtl"]) :=
  ⟨by decide, by
    rw [get_material_lib_paths_scan_correct
      ("mtllib a.mtl\nv 1 2 3\nmtllib a.mtl\nmtllib b.mtl") (by decide)]
    decide⟩

/-- C8: an input containing a line whose first whitespace token is `mtllib`
    but which has no second token makes the scan fail (and the failure is
    exactly characterised by the presence of such a line); a line whose first
    token is not `mtllib` is ignored by the scanning loop. -/
theorem scan_malformed_mtllib_fails (s : String) :
    ((∃ e, get_material_lib_paths s = Except.error e) ↔
      ∃ line ∈ rustLines s, splitWhitespaceR line = ["mtllib"]) ∧
    ∀ (line : String) (rest : List String),
      (splitWhitespaceR line).head? ≠ some ("mtllib") →
      scanLines (line :: rest) = scanLines rest :=
  ⟨scanLines_error_iff (rustLines s),
   fun line rest h =>
     scanLines_skip line rest (fun t hc => h (by rw [hc]; rfl))⟩

/-- Witness for C8: the input `mtllib\nv 1` (a bare `mtllib` line) makes the
    scan fail, and a non-`mtllib` line is skipped. -/
theorem scan_malformed_mtllib_fails_witness :
    (∃ e, get_material_lib_paths ("mtllib\nv 1") = Except.error e) ∧
    scanLines ("v 1 2 3" :: ["mtllib a.mtl"]) = scanLines (["mtllib a.mtl"]) :=
  ⟨(scan_malformed_mtllib_fails ("mtllib\nv 1")).1.mpr ⟨"mtllib", by decide, by decide⟩,
   (scan_malformed_mtllib_fails ("")).2 ("v 1 2 3") (["mtllib a.mtl"]) (by decide)⟩

/-- C7: a material channel whose texture-reference string is empty resolves
    to no texture, is not an error, and performs no fetch, no decode and no
    registration (the load context is returned unchanged). -/
theorem try_texture_handle_empty_no_texture (env : Env) (st : LoadCtx) :
    try_texture_handle env st ("") = (st, Except.ok none) ∧
    ((try_texture_handle env st ("")).1).fetches = st.fetches ∧
    ((try_texture_handle env st ("")).1).assets = st.assets :=
  ⟨try_texture_handle_empty env st, by rw [try_texture_handle_empty],
    by rw [try_texture_handle_empty]⟩

/-- C2: every mesh asset registered by a successful load satisfies the mesh
    invariant — parallel (or empty) attribute sequences, in-range indices and
    full-width tuples — provided the external geometry parser's records obey
    its output contract (`wellFormedMesh`, modelled from the spec, since the
    parser is an external crate).  A failed load registers nothing, so the
    statement needs no success hypothesis. -/
theorem load_obj_mesh_invariant (env : Env) (input : String)
    (hgeom : ∀ model ∈ geometryModels env, wellFormedMesh model.mesh) :
    ∀ label m, (label, Asset.mesh m) ∈ registeredAssets (load_obj env input) →
      meshInvariant m := by
  intro label m hmem
  obtain ⟨model, hmm, pos, nor, uv, hc1, hc2, hc3, heq⟩ :=
    load_obj_mesh_assets env input label m hmem
  obtain ⟨hmod3, hnorm, huv, hidx⟩ := hgeom model hmm
  obtain ⟨hm1, hj1, hw1, hl1⟩ := chunk_by_ok_facts 3 (by omega) _ pos hc1
  obtain ⟨hm2, hj2, hw2, hl2⟩ := chunk_by_ok_facts 3 (by omega) _ nor hc2
  obtain ⟨hm3, hj3, hw3, hl3⟩ := chunk_by_ok_facts 2 (by omega) _ uv hc3
  subst heq
  refine ⟨?_, ?_, ?_, hw1, hw2, hw3⟩
  · rcases hnorm with hpar | hempty
    · left
      show nor.length = pos.length
      rw [hl2, hl1, hpar]
    · right
      show nor = []
      rw [hempty] at hc2
      rw [chunk_by_nil] at hc2
      cases hc2
      rfl
  · rcases huv with hpar | hempty
    · left
      show uv.length = pos.length
      rw [hl3, hl1]
      omega
    · right
      show uv = []
      rw [hempty] at hc3
      rw [chunk_by_nil] at hc3
      cases hc3
      rfl
  · intro i hi
    have := hidx i hi
    show i < pos.length
    rw [hl1]
    omega

/-- Witness for C2 on a concrete successful load of one well-formed record. -/
theorem load_obj_mesh_invariant_witness :
    (∀ model ∈ geometryModels envInv, wellFormedMesh model.mesh) ∧
    ∀ label m, (label, Asset.mesh m) ∈ registeredAssets (load_obj envInv ("v 0 0 0")) →
      meshInvariant m :=
  ⟨by decide, load_obj_mesh_invariant envInv ("v 0 0 0") (by decide)⟩

/-- C3: when the OBJ references a material-library path whose fetch fails,
    the whole load aborts (the unwrap of the failed fetch, carrying the
    failing joined path) and zero assets are registered; there is no
    fallback that continues without the library. -/
theorem load_obj_fetch_failure_aborts (env : Env) (input : String)
    (pending : List String) (p0 : String)
    (hscan : get_material_lib_paths input = Except.ok pending)
    (hfind : pending.find? (fun p => (env.fetch (joinPath env.parent p)).isNone) = some p0) :
    (load_obj env input).2 =
      Except.error (Abort.panicked (PanicInfo.fetchUnwrap (joinPath env.parent p0))) ∧
    registeredAssets (load_obj env input) = [] := by
  obtain ⟨st', hst'⟩ := resolveMaterialLibs_err env pending p0 hfind ⟨[], []⟩
  constructor
  · simp only [load_obj, hscan, hst']
  · unfold registeredAssets
    simp only [load_obj, hscan, hst']

/-- Witness for C3: an input referencing `a.mtl`, whose fetch fails. -/
theorem load_obj_fetch_failure_aborts_witness :
    get_material_lib_paths ("mtllib a.mtl\nv 1 2 3") = Except.ok (["a.mtl"]) ∧
    (["a.mtl"].find? (fun p => (envNoFetch.fetch (joinPath envNoFetch.parent p)).isNone) =
      some ("a.mtl")) ∧
    (load_obj envNoFetch ("mtllib a.mtl\nv 1 2 3")).2 =
      Except.error (Abort.panicked (PanicInfo.fetchUnwrap ("d/a.mtl"))) ∧
    registeredAssets (load_obj envNoFetch ("mtllib a.mtl\nv 1 2 3")) = [] := by
  refine ⟨by decide, by decide, ?_⟩
  have := load_obj_fetch_failure_aborts envNoFetch ("mtllib a.mtl\nv 1 2 3") ["a.mtl"]
    ("a.mtl") (by decide) (by decide)
  exact this

/-- C5: a successfully built material registers, as the last asset it adds, a
    record whose base colour is the descriptor's diffuse triple, whose
    reflectance is the shininess scalar verbatim, whose base-colour /
    normal-map / metallic-roughness / occlusion texture slots are the
    resolutions of the diffuse / normal / specular / ambient references
    respectively, and whose remaining fields keep their engine defaults; the
    assets added before it are the resolved textures. -/
theorem load_material_field_mapping (env : Env) (st : LoadCtx) (m : MtlMaterial)
    (hdl : String) (h : (load_material env st m).2 = Except.ok hdl) :
    hdl = material_label m ∧
    ∃ pre rec, (load_material env st m).1.assets =
        st.assets ++ pre ++ [(material_label m, Asset.material rec)] ∧
      (∀ a ∈ pre, ∃ t, (a : String × Asset).2 = Asset.texture t) ∧
      rec.base_color = ⟨m.diffuse.1, m.diffuse.2.1, m.diffuse.2.2⟩ ∧
      rec.reflectance = m.shininess ∧
      rec.base_color_texture = texResolution m.diffuse_texture ∧
      rec.normal_map = texResolution m.normal_texture ∧
      rec.metallic_roughness_texture = texResolution m.specular_texture ∧
      rec.occlusion_texture = texResolution m.ambient_texture ∧
      rec.roughness = 89 / 1000 ∧ rec.metallic = 1 / 100 ∧
      rec.double_sided = false ∧ rec.emissive = ⟨0, 0, 0⟩ ∧ rec.unlit = false := by
  obtain ⟨hh, pre, hassets, hpre⟩ := load_material_ok_shape env st m hdl h
  exact ⟨hh, pre, _, hassets, hpre, rfl, rfl, rfl, rfl, rfl, rfl, rfl, rfl, rfl, rfl, rfl⟩

/-- Witness for C5 on a concrete successful material build. -/
theorem load_material_field_mapping_witness :
    (load_material envTex ⟨[], []⟩ matDiffuse).2 = Except.ok ("mat1") ∧
    (("mat1" : String) = material_label matDiffuse ∧
    ∃ pre rec, (load_material envTex ⟨[], []⟩ matDiffuse).1.assets =
        (⟨[], []⟩ : LoadCtx).assets ++ pre ++ [(material_label matDiffuse, Asset.material rec)] ∧
      (∀ a ∈ pre, ∃ t, (a : String × Asset).2 = Asset.texture t) ∧
      rec.base_color = ⟨matDiffuse.diffuse.1, matDiffuse.diffuse.2.1, matDiffuse.diffuse.2.2⟩ ∧
      rec.reflectance = matDiffuse.shininess ∧
      rec.base_color_texture = texResolution matDiffuse.diffuse_texture ∧
      rec.normal_map = texResolution matDiffuse.normal_texture ∧
      rec.metallic_roughness_texture = texResolution matDiffuse.specular_texture ∧
      rec.occlusion_texture = texResolution matDiffuse.ambient_texture ∧
      rec.roughness = 89 / 1000 ∧ rec.metallic = 1 / 100 ∧
      rec.double_sided = false ∧ rec.emissive = ⟨0, 0, 0⟩ ∧ rec.unlit = false) :=
  ⟨by decide, load_material_field_mapping envTex ⟨[], []⟩ matDiffuse ("mat1") (by decide)⟩

/-- Counterexample to C6 as stated: in a single successful load, two
    materials referencing the literal path `t.png` cause the path to be
    fetched (resolved) twice, not at most once — `load_texture` has no
    per-load cache. -/
theorem texture_resolved_once_counterexample :
    (load_obj envShared ("v 0 0 0")).2 = Except.ok () ∧
    ((load_obj envShared ("v 0 0 0")).1.fetches).count ("d/t.png") = 2 ∧
    ¬ ((load_obj envShared ("v 0 0 0")).1.fetches).count ("d/t.png") ≤ 1 := by
  decide

/-- C6 (amended): resolving the same non-empty literal reference string is
    deterministic in the environment — every resolution of `t` issues its own
    fetch of the joined path but registers the same texture value under the
    same label `t` and returns the same handle `t`, so two materials
    referencing the same literal path receive the same single shared texture
    asset (the registry keeps one asset per label, last registration wins),
    even though the fetch and decode are repeated per reference rather than
    performed at most once. -/
theorem texture_shared_label_amended (env : Env) (t : String) (bs : Bytes)
    (ext : String) (tex : Texture) (ht : t ≠ "")
    (hf : env.fetch (joinPath env.parent t) = some bs)
    (hx : pathExt (joinPath env.parent t) = some ext)
    (hd : env.from_buffer bs ext = some tex) :
    ∀ st : LoadCtx,
      try_texture_handle env st t =
        (⟨st.fetches ++ [joinPath env.parent t],
          st.assets ++ [(texture_label t,
            Asset.texture ⟨tex.data, texture_sampler, TextureFormat.rgba8UnormSrgb⟩)]⟩,
         Except.ok (some (texture_label t))) :=
  fun st => try_texture_handle_success env st t bs ext tex ht hf hx hd

/-- Witness for the amended C6 at the shared path `t.png`. -/
theorem texture_shared_label_amended_witness :
    ((("t.png" : String) ≠ "") ∧
      envShared.fetch (joinPath envShared.parent ("t.png")) = some [7] ∧
      pathExt (joinPath envShared.parent ("t.png")) = some ("png")) ∧
    ∀ st : LoadCtx,
      try_texture_handle envShared st ("t.png") =
        (⟨st.fetches ++ [joinPath envShared.parent ("t.png")],
          st.assets ++ [(texture_label ("t.png"),
            Asset.texture ⟨[7], texture_sampler, TextureFormat.rgba8UnormSrgb⟩)]⟩,
         Except.ok (some (texture_label ("t.png")))) :=
  ⟨⟨by decide, by decide, by decide⟩,
   texture_shared_label_amended envShared ("t.png") [7] ("png")
     ⟨[7], ⟨FilterMode.nearest, FilterMode.nearest⟩, TextureFormat.other⟩
     (by decide) (by decide) (by decide) (by decide)⟩

/-- C9: a raw mesh record whose material index is present but out of range of
    the built material list behaves exactly like a record with no material
    index: the processing result is identical, the emitted submesh has no
    material, and no failure arises from the out-of-range index. -/
theorem out_of_range_material_id_silently_none (loaded : List String) (st : LoadCtx)
    (i j : Nat) (model : TobjModel) (hj : loaded.length ≤ j) :
    processModel loaded st i (withMaterialId model (some j)) =
      processModel loaded st i (withMaterialId model none) ∧
    (∀ st' r, processModel loaded st i (withMaterialId model (some j)) =
        (st', Except.ok r) → r.2.material = none) := by
  have hnone : (loaded[j]? : Option String) = none := List.getElem?_eq_none hj
  constructor
  · simp only [processModel, withMaterialId, model_label, Option.some_bind,
      Option.none_bind, hnone]
  · intro st' r h
    obtain ⟨pos, nor, uv, _, _, _, _, hr⟩ :=
      processModel_ok_shape loaded st i (withMaterialId model (some j)) st' r h
    rw [hr]
    show (withMaterialId model (some j)).mesh.material_id.bind (fun j => loaded[j]?) = none
    simp only [withMaterialId, Option.some_bind, hnone]

/-- Witness for C9: an out-of-range index 0 against an empty material list,
    on a record that otherwise processes successfully. -/
theorem out_of_range_material_id_silently_none_witness :
    (([] : List String).length ≤ 0) ∧
    (processModel [] ⟨[], []⟩ 0 (withMaterialId ⟨"m", ⟨[1, 2, 3], [], [], [0], none⟩⟩ (some 0)) =
      processModel [] ⟨[], []⟩ 0 (withMaterialId ⟨"m", ⟨[1, 2, 3], [], [], [0], none⟩⟩ none) ∧
    ∀ st' r, processModel [] ⟨[], []⟩ 0
        (withMaterialId ⟨"m", ⟨[1, 2, 3], [], [], [0], none⟩⟩ (some 0)) =
        (st', Except.ok r) → r.2.material = none) :=
  ⟨by decide,
   out_of_range_material_id_silently_none [] ⟨[], []⟩ 0 0
     ⟨"m", ⟨[1, 2, 3], [], [], [0], none⟩⟩ (by decide)⟩

/-- C10: a material library whose bytes fetch successfully but whose parse
    fails does not abort the load at resolution time — the resolution loop
    completes and stores the parse failure as that literal path's result in
    the index; the resolver callback returns exactly that stored failure for
    the path; and the failure propagates out of geometry parsing exactly when
    the external parser requests that literal path through the callback
    (otherwise parsing proceeds on the geometry outcome alone). -/
theorem mtl_parse_failure_deferred (env : Env) (st : LoadCtx) (pending : List String)
    (p : String) (e : TobjErr) (bs : Bytes)
    (hall : ∀ q ∈ pending, (env.fetch (joinPath env.parent q)).isSome)
    (hp : p ∈ pending)
    (hbs : env.fetch (joinPath env.parent p) = some bs)
    (hparse : env.load_mtl bs = Except.error e) :
    ∃ st' index, resolveMaterialLibs env st pending = (st', Except.ok index) ∧
      hmLookup index p = some (Except.error e) ∧
      mtlResolver index p = Except.error e ∧
      ((∀ q ∈ env.objRequests, ∃ ms, mtlResolver index q = Except.ok ms) →
        load_obj_buf env (mtlResolver index) = env.objGeometry) ∧
      ((p ∈ env.objRequests ∧
          (∀ q ∈ env.objRequests, q ≠ p → ∃ ms, mtlResolver index q = Except.ok ms)) →
        load_obj_buf env (mtlResolver index) = Except.error e) := by
  have hex : ∀ q ∈ pending, ∃ b, env.fetch (joinPath env.parent q) = some b := by
    intro q hq
    exact Option.isSome_iff_exists.mp (hall q hq)
  have hres := resolveMaterialLibs_ok env pending hex st
  refine ⟨_, _, hres, ?_, ?_, ?_, ?_⟩
  · rw [hmLookup_map]
    simp only [hp, if_true]
    rw [hbs]
    simp [hparse]
  · unfold mtlResolver
    rw [hmLookup_map]
    simp only [hp, if_true]
    rw [hbs]
    simp [hparse]
  · intro hok
    unfold load_obj_buf
    rw [firstError_ok]
    intro r hr
    obtain ⟨q, hq, hqr⟩ := List.mem_map.mp hr
    obtain ⟨ms, hms⟩ := hok q hq
    exact ⟨ms, by rw [← hqr, hms]⟩
  · intro ⟨hpin, hothers⟩
    unfold load_obj_buf
    have hresolve : mtlResolver
        (pending.map (fun q =>
          (q, env.load_mtl ((env.fetch (joinPath env.parent q)).getD [])))) p =
        Except.error e := by
      unfold mtlResolver
      rw [hmLookup_map]
      simp only [hp, if_true]
      rw [hbs]
      simp [hparse]
    rw [firstError_mem env.objRequests _ p e hpin hresolve hothers]

/-- Witness for C10 at the concrete library path `bad.mtl`. -/
theorem mtl_parse_failure_deferred_witness :
    ((∀ q ∈ ["bad.mtl"], (envBadMtl.fetch (joinPath envBadMtl.parent q)).isSome) ∧
      ("bad.mtl" : String) ∈ ["bad.mtl"] ∧
      envBadMtl.fetch (joinPath envBadMtl.parent ("bad.mtl")) = some [1] ∧
      envBadMtl.load_mtl [1] = Except.error TobjErr.materialParse) ∧
    (∃ st' index,
      resolveMaterialLibs envBadMtl ⟨[], []⟩ ["bad.mtl"] = (st', Except.ok index) ∧
      hmLookup index ("bad.mtl") = some (Except.error TobjErr.materialParse) ∧
      mtlResolver index ("bad.mtl") = Except.error TobjErr.materialParse ∧
      ((∀ q ∈ envBadMtl.objRequests, ∃ ms, mtlResolver index q = Except.ok ms) →
        load_obj_buf envBadMtl (mtlResolver index) = envBadMtl.objGeometry) ∧
      ((("bad.mtl" : String) ∈ envBadMtl.objRequests ∧
          (∀ q ∈ envBadMtl.objRequests, q ≠ ("bad.mtl") →
            ∃ ms, mtlResolver index q = Except.ok ms)) →
        load_obj_buf envBadMtl (mtlResolver index) =
          Except.error TobjErr.materialParse)) :=
  ⟨⟨by decide, by decide, by decide, by decide⟩,
   mtl_parse_failure_deferred envBadMtl ⟨[], []⟩ ["bad.mtl"] ("bad.mtl")
     TobjErr.materialParse [1] (by decide) (by decide) (by decide) (by decide)⟩
